import Mathlib

/-!
Verification of go-mcp-evals (github.com/wolfeidau/go-mcp-evals) against its
natural-language specification.

The Go sources are shallowly embedded as executable Lean definitions:
  * `result_parser.go`  — the multi-strategy JSON extractor used by the grader;
  * `mcp_evals.go`      — the eval runtime: MCP session environment policy,
    tool-call tracing, the agentic loop (modelled as a deterministic state
    machine driven by oracles for the LLM stream and the MCP tool transport),
    trace finalization, grading, rubric minimum-score enforcement, and the
    batch orchestrator.

Wall-clock time is modelled by a logical clock (a natural number) that every
`time.Now()` call reads and advances; Go's zero `time.Time` is clock value 0
and every observed instant is positive.  JSON byte strings produced by
`json.Marshal` of string maps are modelled by a small JSON value type plus a
rendering function mirroring Go's encoder on the characters that occur here.
-/

namespace McpEvals

/-! ## Go string primitives -/

/-- Whitespace recognised by Go's `unicode.IsSpace` (Latin-1 range). -/
def goIsSpace (c : Char) : Bool :=
  c = ' ' || c = '\t' || c = '\n' || c = (Char.ofNat 11) || c = (Char.ofNat 12) ||
  c = '\r' || c = (Char.ofNat 0x85) || c = (Char.ofNat 0xA0)

/-- `strings.TrimSpace`. -/
def goTrimSpace (s : String) : String :=
  (((s.toList.dropWhile goIsSpace).reverse.dropWhile goIsSpace).reverse).asString

/-- `strings.HasPrefix` (over the characters of the strings). -/
def goHasPrefix (s pre : String) : Bool :=
  pre.toList.isPrefixOf s.toList

/-- `strings.TrimPrefix`. -/
def goTrimPrefixStr (s pre : String) : String :=
  if goHasPrefix s pre then (s.toList.drop pre.toList.length).asString else s

/-- `strings.TrimSuffix`. -/
def goTrimSuffixStr (s suf : String) : String :=
  if suf.toList.isSuffixOf s.toList then
    (s.toList.take (s.toList.length - suf.toList.length)).asString
  else s

/-- `strings.Join` / `strings.Split` companions, written over character
lists so that they compute by structural recursion. -/
def goJoinSep (sep : String) : List String → String
  | [] => ""
  | x :: xs => xs.foldl (fun acc y => acc ++ sep ++ y) x

def splitLinesAux : List Char → List Char → List String
  | [], cur => [cur.reverse.asString]
  | c :: rest, cur =>
    if c = '\n' then cur.reverse.asString :: splitLinesAux rest []
    else splitLinesAux rest (c :: cur)

/-- `strings.Split(s, "\n")`. -/
def goSplitLines (s : String) : List String := splitLinesAux s.toList []

/-! ## JSON values and a syntax checker mirroring `encoding/json` -/

/-- A JSON document, with numbers kept as their source text. -/
inductive JsonVal where
  | null
  | boolean (b : Bool)
  | num (raw : String)
  | str (s : String)
  | arr (elems : List JsonVal)
  | obj (fields : List (String × JsonVal))
deriving Inhabited

/-- JSON insignificant whitespace (RFC 8259, as accepted by `encoding/json`). -/
def jsonWs (c : Char) : Bool :=
  c = ' ' || c = '\t' || c = '\n' || c = '\r'

def skipJsonWs (l : List Char) : List Char := l.dropWhile jsonWs

def isHexDigit (c : Char) : Bool :=
  c.isDigit || ('a' ≤ c && c ≤ 'f') || ('A' ≤ c && c ≤ 'F')

/-- Translate a single-character JSON escape to the character it denotes. -/
def unescapeChar (c : Char) : Char :=
  if c = 'b' then Char.ofNat 8
  else if c = 'f' then Char.ofNat 12
  else if c = 'n' then '\n'
  else if c = 'r' then '\r'
  else if c = 't' then '\t'
  else c

/-- Parse the body of a JSON string (the opening quote already consumed). -/
def parseStringBody : Nat → List Char → Option (List Char × List Char)
  | 0, _ => none
  | _, [] => none
  | fuel + 1, c :: rest =>
    if c = '"' then some ([], rest)
    else if c = '\\' then
      match rest with
      | [] => none
      | e :: rest' =>
        if e = 'u' then
          match rest' with
          | a :: b :: c2 :: d :: rest'' =>
            if isHexDigit a && isHexDigit b && isHexDigit c2 && isHexDigit d then
              (parseStringBody fuel rest'').map (fun p => ('?' :: p.1, p.2))
            else none
          | _ => none
        else if e = '"' || e = '\\' || e = '/' || e = 'b' || e = 'f' || e = 'n' ||
                e = 'r' || e = 't' then
          (parseStringBody fuel rest').map (fun p => (unescapeChar e :: p.1, p.2))
        else none
    else if c.toNat < 0x20 then none
    else (parseStringBody fuel rest).map (fun p => (c :: p.1, p.2))

/-- One or more decimal digits. -/
def parseDigits (l : List Char) : Option (List Char × List Char) :=
  let ds := l.takeWhile Char.isDigit
  if ds.isEmpty then none else some (ds, l.drop ds.length)

/-- Parse a JSON number, returning its source text. -/
def parseNum (l : List Char) : Option (String × List Char) := do
  let (negPart, l1) := match l with
    | '-' :: r => ([('-' : Char)], r)
    | _ => ([], l)
  let (intPart, l2) ← match l1 with
    | '0' :: r => some ([('0' : Char)], r)
    | _ => parseDigits l1
  let (fracPart, l3) ← match l2 with
    | '.' :: r => (parseDigits r).map (fun p => ('.' :: p.1, p.2))
    | _ => some ([], l2)
  let (expPart, l4) ← match l3 with
    | 'e' :: '+' :: r => (parseDigits r).map (fun p => ('e' :: '+' :: p.1, p.2))
    | 'e' :: '-' :: r => (parseDigits r).map (fun p => ('e' :: '-' :: p.1, p.2))
    | 'e' :: r => (parseDigits r).map (fun p => ('e' :: p.1, p.2))
    | 'E' :: '+' :: r => (parseDigits r).map (fun p => ('E' :: '+' :: p.1, p.2))
    | 'E' :: '-' :: r => (parseDigits r).map (fun p => ('E' :: '-' :: p.1, p.2))
    | 'E' :: r => (parseDigits r).map (fun p => ('E' :: p.1, p.2))
    | _ => some ([], l3)
  some ((negPart ++ intPart ++ fracPart ++ expPart).asString, l4)

mutual

/-- Parse one JSON value. -/
def parseValue : Nat → List Char → Option (JsonVal × List Char)
  | 0, _ => none
  | fuel + 1, l =>
    match skipJsonWs l with
    | [] => none
    | 'n' :: 'u' :: 'l' :: 'l' :: rest => some (.null, rest)
    | 't' :: 'r' :: 'u' :: 'e' :: rest => some (.boolean true, rest)
    | 'f' :: 'a' :: 'l' :: 's' :: 'e' :: rest => some (.boolean false, rest)
    | '"' :: rest =>
      (parseStringBody (rest.length + 1) rest).map (fun p => (.str p.1.asString, p.2))
    | '[' :: rest =>
      (match skipJsonWs rest with
       | ']' :: rest' => some (.arr [], rest')
       | l' => (parseElems fuel l').map (fun p => (.arr p.1, p.2)))
    | '{' :: rest =>
      (match skipJsonWs rest with
       | '}' :: rest' => some (.obj [], rest')
       | l' => (parseMembers fuel l').map (fun p => (.obj p.1, p.2)))
    | c :: r =>
      if c = '-' || c.isDigit then
        (parseNum (c :: r)).map (fun p => (.num p.1, p.2))
      else none

/-- Parse the non-empty element list of a JSON array. -/
def parseElems : Nat → List Char → Option (List JsonVal × List Char)
  | 0, _ => none
  | fuel + 1, l => do
    let (v, rest) ← parseValue fuel l
    match skipJsonWs rest with
    | ',' :: rest' => (parseElems fuel rest').map (fun p => (v :: p.1, p.2))
    | ']' :: rest' => some ([v], rest')
    | _ => none

/-- Parse the non-empty member list of a JSON object. -/
def parseMembers : Nat → List Char → Option (List (String × JsonVal) × List Char)
  | 0, _ => none
  | fuel + 1, l =>
    match skipJsonWs l with
    | '"' :: rest => do
      let (key, rest1) ← parseStringBody (rest.length + 1) rest
      match skipJsonWs rest1 with
      | ':' :: rest2 => do
        let (v, rest3) ← parseValue fuel rest2
        match skipJsonWs rest3 with
        | ',' :: rest4 => (parseMembers fuel rest4).map (fun p => ((key.asString, v) :: p.1, p.2))
        | '}' :: rest4 => some ([(key.asString, v)], rest4)
        | _ => none
      | _ => none
    | _ => none

end

/-- Parse a complete JSON document (no trailing data beyond whitespace). -/
def parseJsonDoc (s : String) : Option JsonVal :=
  let l := s.toList
  match parseValue (4 * l.length + 4) l with
  | some (v, rest) => if (skipJsonWs rest).isEmpty then some v else none
  | none => none

/-- `isValidJSON` from result_parser.go: trim, reject empty, try `json.Unmarshal`
into a `json.RawMessage`. -/
def isValidJSON (s : String) : Bool :=
  let t := goTrimSpace s
  if t = "" then false else (parseJsonDoc t).isSome

/-! ## The multi-strategy JSON extractor (result_parser.go) -/

/-- `stripMarkdownFences`. -/
def stripMarkdownFences (s : String) : String :=
  let c0 := goTrimSpace s
  let c1 := goTrimPrefixStr c0 "```json"
  let c2 := goTrimPrefixStr c1 "```"
  let c3 := goTrimSuffixStr c2 "```"
  goTrimSpace c3

/-- Index of the first occurrence of `c` in `l`. -/
def firstIdxOf (l : List Char) (c : Char) : Option Nat := l.findIdx? (· = c)

/-- Index of the last occurrence of `c` in `l`. -/
def lastIdxOf (l : List Char) (c : Char) : Option Nat :=
  (l.reverse.findIdx? (· = c)).map (fun i => l.length - 1 - i)

/-- The leftmost match of the Go regular expression `\x7b[\s\S]*\x7d`
(respectively `\[[\s\S]*\]`): it spans from the first opening character to
the last closing character, when the latter lies strictly beyond the former. -/
def greedySpan (l : List Char) (openc closec : Char) : Option (List Char) :=
  match firstIdxOf l openc, lastIdxOf l closec with
  | some i, some j => if i < j then some ((l.drop i).take (j + 1 - i)) else none
  | _, _ => none

/-- `extractJSONWithRegex`. -/
def extractJSONWithRegex (s : String) : Except String String :=
  match greedySpan s.toList '{' '}' with
  | some m => .ok (goTrimSpace m.asString)
  | none =>
    match greedySpan s.toList '[' ']' with
    | some m => .ok (goTrimSpace m.asString)
    | none => .error "no JSON structure found"

/-- Net brace/bracket contribution of one line (the inner `for` over the
line's characters in `extractJSONByScanning`). -/
def lineDelta (line : String) : Int × Int :=
  line.toList.foldl
    (fun acc ch =>
      if ch = '{' then (acc.1 + 1, acc.2)
      else if ch = '}' then (acc.1 - 1, acc.2)
      else if ch = '[' then (acc.1, acc.2 + 1)
      else if ch = ']' then (acc.1, acc.2 - 1)
      else acc)
    (0, 0)

/-- The line loop of `extractJSONByScanning`. -/
def scanLines : List String → Bool → Int → Int → List String → Except String String
  | [], _, _, _, _ => .error "no complete JSON structure found"
  | line :: rest, inJSON, brace, bracket, acc =>
    let trimmedLine := goTrimSpace line
    if !inJSON && trimmedLine = "" then
      scanLines rest inJSON brace bracket acc
    else
      let inJSON' := inJSON || (goHasPrefix trimmedLine "\x7b" || goHasPrefix trimmedLine "[")
      if inJSON' then
        let acc' := acc ++ [line]
        let d := lineDelta line
        let brace' := brace + d.1
        let bracket' := bracket + d.2
        if brace' = 0 && bracket' = 0 && acc'.length > 0 then
          .ok (goTrimSpace (goJoinSep "\n" acc'))
        else
          scanLines rest inJSON' brace' bracket' acc'
      else
        scanLines rest inJSON' brace bracket acc

/-- `extractJSONByScanning`. -/
def extractJSONByScanning (s : String) : Except String String :=
  scanLines (goSplitLines s) false 0 0 []

/-- `extractJSONFromResponse`: returns the extracted text together with the
error value of the Go function (its second return value). -/
def extractJSONFromResponse (s : String) : String × Option String :=
  let trimmed := goTrimSpace s
  if isValidJSON trimmed then (trimmed, none)
  else
    let cleaned := stripMarkdownFences trimmed
    if isValidJSON cleaned then (cleaned, none)
    else
      let step3 : Option String :=
        match extractJSONWithRegex trimmed with
        | .ok e => if isValidJSON e then some e else none
        | .error _ => none
      match step3 with
      | some e => (e, none)
      | none =>
        let step4 : Option String :=
          match extractJSONByScanning trimmed with
          | .ok e => if isValidJSON e then some e else none
          | .error _ => none
        match step4 with
        | some e => (e, none)
        | none => (cleaned, none)

/-- All four extraction strategies fail to produce valid JSON on `s`. -/
def strategiesAllFail (s : String) : Bool :=
  let trimmed := goTrimSpace s
  !isValidJSON trimmed &&
  !isValidJSON (stripMarkdownFences trimmed) &&
  (match extractJSONWithRegex trimmed with
   | .ok e => !isValidJSON e
   | .error _ => true) &&
  (match extractJSONByScanning trimmed with
   | .ok e => !isValidJSON e
   | .error _ => true)

/-! ## Rendering JSON values the way `json.Marshal` does -/

def hexDigitChar (n : Nat) : Char :=
  if n < 10 then Char.ofNat ('0'.toNat + n) else Char.ofNat ('a'.toNat + n - 10)

/-- Escape one character as Go's JSON encoder does (HTML escaping on). -/
def goEscapeChar (c : Char) : List Char :=
  if c = '"' then ['\\', '"']
  else if c = '\\' then ['\\', '\\']
  else if c = '\n' then ['\\', 'n']
  else if c = '\r' then ['\\', 'r']
  else if c = '\t' then ['\\', 't']
  else if c = '<' then "\\u003c".toList
  else if c = '>' then "\\u003e".toList
  else if c = '&' then "\\u0026".toList
  else if c.toNat < 0x20 then
    ['\\', 'u', '0', '0', hexDigitChar (c.toNat / 16), hexDigitChar (c.toNat % 16)]
  else if c.toNat = 0x2028 then "\\u2028".toList
  else if c.toNat = 0x2029 then "\\u2029".toList
  else [c]

/-- Quote a string as a JSON string literal. -/
def goQuote (s : String) : String :=
  "\"" ++ ((s.toList.map goEscapeChar).flatten).asString ++ "\""

mutual

/-- Serialize a JSON value to its byte-string form. -/
def renderJson : JsonVal → String
  | .null => "null"
  | .boolean true => "true"
  | .boolean false => "false"
  | .num raw => raw
  | .str s => goQuote s
  | .arr es => "[" ++ renderJsonList es ++ "]"
  | .obj fs => "\x7b" ++ renderJsonFields fs ++ "\x7d"

/-- Comma-separated rendering of array elements. -/
def renderJsonList : List JsonVal → String
  | [] => ""
  | [e] => renderJson e
  | e :: rest => renderJson e ++ "," ++ renderJsonList rest

/-- Comma-separated rendering of object members. -/
def renderJsonFields : List (String × JsonVal) → String
  | [] => ""
  | [(k, v)] => goQuote k ++ ":" ++ renderJson v
  | (k, v) :: rest => goQuote k ++ ":" ++ renderJson v ++ "," ++ renderJsonFields rest

end

/-! ## Data model (mcp_evals.go type declarations) -/

/-- `ToolCall` — one traced tool invocation.  `input` and `output` hold the
JSON values whose `json.Marshal` renderings the Go struct stores as raw bytes. -/
structure ToolCall where
  toolID : String
  toolName : String
  startTime : Nat
  endTime : Nat
  duration : Int
  input : JsonVal
  output : JsonVal
  success : Bool
  error : String
deriving Inhabited

/-- `AgenticStep` — one iteration of the agentic loop. -/
structure AgenticStep where
  stepNumber : Nat
  startTime : Nat
  endTime : Nat
  duration : Int
  modelResponse : String
  stopReason : String
  toolCalls : List ToolCall
  inputTokens : Nat
  outputTokens : Nat
  cacheCreationInputTokens : Nat
  cacheReadInputTokens : Nat
  error : String
deriving Inhabited

/-- `GradingTrace`. -/
structure GradingTrace where
  userPrompt : String
  modelResponse : String
  expectedResult : String
  gradingPrompt : String
  rawGradingOutput : String
  startTime : Nat
  endTime : Nat
  duration : Int
  inputTokens : Nat
  outputTokens : Nat
  cacheCreationInputTokens : Nat
  cacheReadInputTokens : Nat
  error : String
deriving Inhabited

/-- `EvalTrace`. -/
structure EvalTrace where
  steps : List AgenticStep
  grading : Option GradingTrace
  totalDuration : Int
  totalInputTokens : Nat
  totalOutputTokens : Nat
  stepCount : Nat
  toolCallCount : Nat
  totalCacheCreationTokens : Nat
  totalCacheReadTokens : Nat
deriving Inhabited

/-- `EvalResult`. -/
structure EvalResult where
  prompt : String
  rawResponse : String
deriving Inhabited

/-- `GradeResult` — five dimension scores plus a comment. -/
structure GradeResult where
  accuracy : Int
  completeness : Int
  relevance : Int
  clarity : Int
  reasoning : Int
  overallComment : String
deriving Inhabited

/-- `DimensionCriteria`. -/
structure DimensionCriteria where
  description : String
  mustHave : List String
  niceToHave : List String
  penalties : List String
deriving Inhabited

/-- `GradingRubric`.  Go's `MinimumScores` map is modelled as an association
list (its iteration order is immaterial to the properties proved here). -/
structure GradingRubric where
  dimensions : List String
  accuracy : Option DimensionCriteria
  completeness : Option DimensionCriteria
  relevance : Option DimensionCriteria
  clarity : Option DimensionCriteria
  reasoning : Option DimensionCriteria
  minimumScores : List (String × Int)
deriving Inhabited

/-- `Eval` — one test case. -/
structure Eval where
  name : String
  description : String
  prompt : String
  expectedResult : String
  agentSystemPrompt : String
  gradingRubric : Option GradingRubric
deriving Inhabited

/-- `EvalRunResult`.  Pointer-valued Go fields become `Option`s. -/
structure EvalRunResult where
  eval : Eval
  result : Option EvalResult
  grade : Option GradeResult
  error : Option String
  trace : Option EvalTrace
deriving Inhabited

/-- `EvalClientConfig` (the fields the verified operations read).  The two
`*bool` knobs stay `Option Bool` exactly as in Go. -/
structure EvalClientConfig where
  command : String
  args : List String
  env : List String
  model : String
  gradingModel : String
  agentSystemPrompt : String
  maxSteps : Nat
  maxTokens : Nat
  enablePromptCaching : Option Bool
  cacheTTL : String
  enforceMinimumScores : Option Bool
deriving Inhabited

/-! ## MCP session environment policy (loadMCPSession, lines 134-137) -/

/-- The environment handed to the spawned MCP child process: when `extraEnv`
is non-empty, `cmd.Env = append(os.Environ(), ec.config.Env...)`; when empty,
`cmd.Env` stays nil and the child inherits the parent environment verbatim. -/
def childEnv (parentEnv extraEnv : List String) : List String :=
  if 0 < extraEnv.length then parentEnv ++ extraEnv else parentEnv

/-- Effective value of `key` in a `KEY=VALUE` environment list under the
standard exec semantics: the last binding wins. -/
def lookupEnv (env : List String) (key : String) : Option String :=
  env.foldl
    (fun acc e =>
      if goHasPrefix e (key ++ "=") then some ((e.toList.drop (key.toList.length + 1)).asString)
      else acc)
    none

/-! ## Tool-call tracer (executeAndTraceToolCall) -/

/-- MCP content blocks as consumed by the tracer's `switch`. -/
inductive MCPContent where
  | text (t : String)
  | image (mimeType : String)
  | resource (uri : String)
deriving Inhabited

/-- Flatten one MCP content block exactly as the tracer's `switch` renders it. -/
def renderContentPart : MCPContent → String
  | .text t => t
  | .image m => "[Image: " ++ m ++ "]"
  | .resource u => "[Resource: " ++ u ++ "]"

/-- `strings.Join(contentParts, "\n")` over the rendered blocks. -/
def flattenContent (blocks : List MCPContent) : String :=
  goJoinSep "\n" (blocks.map renderContentPart)

/-- `executeAndTraceToolCall`: run one MCP tool call (whose transport outcome
is `callResult`) and produce the completed `ToolCall` record, threading the
logical clock through the two `time.Now()` reads. -/
def executeAndTraceToolCall (callResult : Except String (List MCPContent))
    (toolUseID toolUseName : String) (input : JsonVal) (clock : Nat) : ToolCall × Nat :=
  let startTime := clock
  let clock1 := clock + 1
  let endTime := clock1
  let clock2 := clock1 + 1
  let dur : Int := (endTime : Int) - (startTime : Int)
  match callResult with
  | .error msg =>
    ({ toolID := toolUseID, toolName := toolUseName, startTime, endTime, duration := dur,
       input, output := .obj [("error", .str msg)], success := false, error := msg }, clock2)
  | .ok blocks =>
    ({ toolID := toolUseID, toolName := toolUseName, startTime, endTime, duration := dur,
       input, output := .obj [("result", .str (flattenContent blocks))], success := true,
       error := "" }, clock2)

/-! ## Rubric minimum-score enforcement (CheckMinimumScores) -/

/-- The `switch dim` of `CheckMinimumScores`: the graded score for a dimension
name, zero for any name outside the five cases. -/
def dimScore (grade : GradeResult) (dim : String) : Int :=
  if dim = "accuracy" then grade.accuracy
  else if dim = "completeness" then grade.completeness
  else if dim = "relevance" then grade.relevance
  else if dim = "clarity" then grade.clarity
  else if dim = "reasoning" then grade.reasoning
  else 0

/-- `fmt.Sprintf("%s: got %d, required %d", dim, actualScore, minScore)`. -/
def minScoreFailureLine (dim : String) (got required : Int) : String :=
  dim ++ ": got " ++ toString got ++ ", required " ++ toString required

/-- The `failures` slice accumulated by `CheckMinimumScores`. -/
def minScoreFailures (r : GradingRubric) (grade : GradeResult) : List String :=
  r.minimumScores.filterMap (fun p =>
    if dimScore grade p.1 < p.2 then
      some (minScoreFailureLine p.1 (dimScore grade p.1) p.2)
    else none)

/-- The message of the error returned when some minimum is missed. -/
def minScoreErrorMessage (failures : List String) : String :=
  "eval failed minimum score requirements: " ++ goJoinSep "; " failures ++
    ". Review grading criteria or adjust rubric thresholds"

/-- `(*GradingRubric).CheckMinimumScores` — `none` models a nil error. -/
def CheckMinimumScores (r : Option GradingRubric) (grade : GradeResult) : Option String :=
  match r with
  | none => none
  | some rubric =>
    if rubric.minimumScores.length = 0 then none
    else
      let failures := minScoreFailures rubric grade
      if 0 < failures.length then some (minScoreErrorMessage failures) else none

/-! ## Agentic loop (RunEval, lines 277-418) -/

/-- The built-in default agent system prompt constant. -/
def AgentSystemPrompt : String :=
  "You are an assistant responsible for evaluating the results of calling various tools. Given the user's query, use the tools available to you to answer the question."

/-- System-prompt selection (RunEval lines 295-303): start from the default,
overwrite with the client-config override when non-empty, then with the
per-eval override when non-empty. -/
def selectAgentPrompt (cfg : EvalClientConfig) (eval : Eval) : String :=
  let p1 := if cfg.agentSystemPrompt ≠ "" then cfg.agentSystemPrompt else AgentSystemPrompt
  if eval.agentSystemPrompt ≠ "" then eval.agentSystemPrompt else p1

/-- Cache-control marker attached to the system text block: `none` when
caching is off; otherwise the TTL field ("" unless `cache_ttl == "1h"`). -/
def systemCacheControl (cfg : EvalClientConfig) : Option String :=
  if cfg.enablePromptCaching = some true then
    some (if cfg.cacheTTL = "1h" then "1h" else "")
  else none

/-- Anthropic-side content blocks of an accumulated assistant message. -/
inductive ContentBlock where
  | text (t : String)
  | toolUse (id name : String) (input : JsonVal)
deriving Inhabited

/-- Blocks inside a user-role message param. -/
inductive MsgBlock where
  | text (t : String)
  | toolResult (toolUseID : String) (content : String) (isError : Bool)
deriving Inhabited, DecidableEq

/-- One entry of the conversation history (`[]anthropic.MessageParam`). -/
inductive Message where
  | user (content : List MsgBlock)
  | assistant (content : List ContentBlock)
deriving Inhabited

/-- Final `usage` block of one LLM response. -/
structure Usage where
  inputTokens : Nat
  outputTokens : Nat
  cacheCreationInputTokens : Nat
  cacheReadInputTokens : Nat
deriving Inhabited

/-- The accumulated result of one streaming LLM call: the final content
blocks, the stop reason, usage, and the concatenation of the text deltas
observed while streaming. -/
structure ModelMessage where
  content : List ContentBlock
  stopReason : String
  usage : Usage
  deltaText : String
deriving Inhabited

/-- Outcome of one `Messages.NewStreaming` call, as observed by the loop:
an accumulation failure mid-stream, a stream error after the event source
ended, or a completed message. -/
inductive StreamOutcome where
  | accumErr (msg : String)
  | streamFail (msg : String)
  | ok (msg : ModelMessage)
deriving Inhabited

/-- Non-streaming grading response (`Messages.New`): the single text block
plus usage. -/
structure GradingResponse where
  text : String
  usage : Usage
deriving Inhabited

/-- Oracles for one eval's external interactions: the MCP session open,
the i-th streaming LLM call, the i-th tool call, and the grading call. -/
structure EvalEnv where
  connect : Except String Unit
  stream : Nat → StreamOutcome
  toolCall : Nat → Except String (List MCPContent)
  gradingCall : Except String GradingResponse

/-- A record of one LLM call's request parameters (what C4 assembles). -/
structure LLMCall where
  model : String
  maxTokens : Nat
  system : String
  systemCacheControl : Option String
deriving Inhabited

/-- In-memory state of the agentic loop. -/
structure LoopState where
  messages : List Message
  steps : List AgenticStep
  finalText : String
  llmCalls : List LLMCall
  stepNumber : Nat
  clock : Nat
  llmIdx : Nat
  toolIdx : Nat
deriving Inhabited

/-- How the loop body left the loop. -/
inductive LoopExit where
  | done
  | fatal (e : String)
deriving Inhabited

/-- Result of one loop iteration: continue with a new state, or stop. -/
inductive StepOut where
  | next (st : LoopState)
  | halt (st : LoopState) (exit : LoopExit)
deriving Inhabited

/-- `step.ModelResponse += textBlock.Text` over the message content. -/
def concatTextBlocks (content : List ContentBlock) : String :=
  content.foldl
    (fun acc b => match b with
      | .text t => acc ++ t
      | _ => acc) ""

/-- The tool-result block content for one executed call (RunEval 392-397):
the output JSON bytes on success, an `Error calling tool:` message otherwise. -/
def mkToolResultContent (tc : ToolCall) : String :=
  if tc.success then renderJson tc.output else "Error calling tool: " ++ tc.error

/-- `anthropic.NewToolResultBlock(block.ID, resultContent, !toolCall.Success)`. -/
def mkToolResultBlock (tc : ToolCall) : MsgBlock :=
  .toolResult tc.toolID (mkToolResultContent tc) (!tc.success)

/-- The `for _, block := range message.Content` tool-execution pass (RunEval
383-405): run every `tool_use` block in arrival order through the tracer and
build the matching tool-result blocks; text blocks are skipped.  Returns the
traced calls, the result blocks, the next tool-call oracle index, and the
advanced clock. -/
def execToolBlocks (toolO : Nat → Except String (List MCPContent)) :
    List ContentBlock → Nat → Nat → List ToolCall × List MsgBlock × Nat × Nat
  | [], toolIdx, clock => ([], [], toolIdx, clock)
  | .text _ :: rest, toolIdx, clock => execToolBlocks toolO rest toolIdx clock
  | .toolUse id name input :: rest, toolIdx, clock =>
    let r := executeAndTraceToolCall (toolO toolIdx) id name input clock
    let rec' := execToolBlocks toolO rest (toolIdx + 1) r.2
    (r.1 :: rec'.1, mkToolResultBlock r.1 :: rec'.2.1, rec'.2.2.1, rec'.2.2.2)

/-- One iteration of the agentic loop (the body of `for range MaxSteps`). -/
def runStepIter (cfg : EvalClientConfig) (eval : Eval) (streamO : Nat → StreamOutcome)
    (toolO : Nat → Except String (List MCPContent)) (st : LoopState) : StepOut :=
  let stepNumber := st.stepNumber + 1
  let stepStart := st.clock
  let clock1 := st.clock + 1
  let call : LLMCall :=
    { model := cfg.model, maxTokens := cfg.maxTokens,
      system := selectAgentPrompt cfg eval, systemCacheControl := systemCacheControl cfg }
  let baseStep : AgenticStep :=
    { stepNumber, startTime := stepStart, endTime := 0, duration := 0,
      modelResponse := "", stopReason := "", toolCalls := [],
      inputTokens := 0, outputTokens := 0, cacheCreationInputTokens := 0,
      cacheReadInputTokens := 0, error := "" }
  match streamO st.llmIdx with
  | .accumErr msg =>
    .halt
      { st with
        steps := st.steps ++ [{ baseStep with error := msg }]
        llmCalls := st.llmCalls ++ [call]
        stepNumber
        clock := clock1
        llmIdx := st.llmIdx + 1 }
      (.fatal ("failed to accumulate event: " ++ msg))
  | .streamFail msg =>
    .halt
      { st with
        steps := st.steps ++ [{ baseStep with error := msg }]
        llmCalls := st.llmCalls ++ [call]
        stepNumber
        clock := clock1
        llmIdx := st.llmIdx + 1 }
      (.fatal ("streaming error: " ++ msg))
  | .ok m =>
    let finalText := st.finalText ++ m.deltaText
    let step :=
      { baseStep with
        stopReason := m.stopReason,
        inputTokens := m.usage.inputTokens, outputTokens := m.usage.outputTokens,
        cacheCreationInputTokens := m.usage.cacheCreationInputTokens,
        cacheReadInputTokens := m.usage.cacheReadInputTokens,
        modelResponse := concatTextBlocks m.content }
    let messages := st.messages ++ [.assistant m.content]
    if m.stopReason = "end_turn" || m.stopReason ≠ "tool_use" then
      let endTime := clock1
      .halt
        { st with
          messages
          finalText
          steps := st.steps ++
            [{ step with endTime, duration := (endTime : Int) - (stepStart : Int) }]
          llmCalls := st.llmCalls ++ [call]
          stepNumber
          clock := clock1 + 1
          llmIdx := st.llmIdx + 1 }
        .done
    else
      let r := execToolBlocks toolO m.content st.toolIdx clock1
      let calls := r.1
      let blks := r.2.1
      let toolIdx' := r.2.2.1
      let endTime := r.2.2.2
      let step' :=
        { step with
          toolCalls := calls
          endTime
          duration := (endTime : Int) - (stepStart : Int) }
      let stBase : LoopState :=
        { messages
          steps := st.steps ++ [step']
          finalText
          llmCalls := st.llmCalls ++ [call]
          stepNumber
          clock := endTime + 1
          llmIdx := st.llmIdx + 1
          toolIdx := toolIdx' }
      if blks.isEmpty then .halt stBase .done
      else .next { stBase with messages := messages ++ [.user blks] }

/-- The bounded agentic loop: iterate `runStepIter` at most `fuel` times
(`fuel = MaxSteps`); running out of fuel terminates without error. -/
def runLoop (cfg : EvalClientConfig) (eval : Eval) (streamO : Nat → StreamOutcome)
    (toolO : Nat → Except String (List MCPContent)) :
    Nat → LoopState → LoopState × LoopExit
  | 0, st => (st, .done)
  | fuel + 1, st =>
    match runStepIter cfg eval streamO toolO st with
    | .next st' => runLoop cfg eval streamO toolO fuel st'
    | .halt st' e => (st', e)

/-- Loop entry state: the message history holds the user prompt, everything
else is empty; the clock has consumed the single `overallStart` read. -/
def initLoopState (eval : Eval) (clock : Nat) : LoopState :=
  { messages := [.user [.text eval.prompt]], steps := [], finalText := "",
    llmCalls := [], stepNumber := 0, clock, llmIdx := 0, toolIdx := 0 }

/-- The `for _, step := range trace.Steps` aggregation pass (RunEval 422-430). -/
def accumulateStepTotals (t : EvalTrace) (steps : List AgenticStep) : EvalTrace :=
  steps.foldl
    (fun t step =>
      { t with
        totalInputTokens := t.totalInputTokens + step.inputTokens,
        totalOutputTokens := t.totalOutputTokens + step.outputTokens,
        toolCallCount := t.toolCallCount + step.toolCalls.length,
        totalCacheCreationTokens := t.totalCacheCreationTokens + step.cacheCreationInputTokens,
        totalCacheReadTokens := t.totalCacheReadTokens + step.cacheReadInputTokens })
    t

/-! ## Grader (buildGradingPrompt, gradeWithTrace) -/

/-- `formatDimensionCriteria`. -/
def formatDimensionCriteria (dimension : String) (criteria : DimensionCriteria) : String :=
  let sb := "### " ++ dimension ++ "\n"
  let sb := if criteria.description ≠ "" then sb ++ criteria.description ++ "\n\n" else sb
  let sb :=
    if 0 < criteria.mustHave.length then
      sb ++ "**Must have for high scores (4-5):**\n" ++
        String.join (criteria.mustHave.map (fun item => "- " ++ item ++ "\n")) ++ "\n"
    else sb
  let sb :=
    if 0 < criteria.niceToHave.length then
      sb ++ "**Nice to have:**\n" ++
        String.join (criteria.niceToHave.map (fun item => "- " ++ item ++ "\n")) ++ "\n"
    else sb
  if 0 < criteria.penalties.length then
    sb ++ "**Score reductions:**\n" ++
      String.join (criteria.penalties.map (fun item => "- " ++ item ++ "\n")) ++ "\n"
  else sb

/-- The per-tool-call fragment of the grading prompt's tool section. -/
def toolCallPromptPart (tc : ToolCall) : String :=
  "\n- Tool: '" ++ tc.toolName ++ "'\n" ++
  (if tc.success then
    "  Status: SUCCESS\n" ++
      (if 0 < (renderJson tc.output).length then
        "  Returned data: " ++ renderJson tc.output ++ "\n"
      else "")
  else "  Status: FAILED - " ++ tc.error ++ "\n")

/-- `buildGradingPrompt`. -/
def buildGradingPrompt (eval : Eval) (evalResult : EvalResult)
    (execTrace : Option EvalTrace) : String :=
  let prompt := "Here is the user input: " ++ evalResult.prompt ++ "\n" ++
    "Here is the LLM's answer: " ++ evalResult.rawResponse ++ "\n"
  let prompt :=
    match execTrace with
    | some t =>
      if 0 < t.toolCallCount then
        prompt ++ "\n\nTool Execution Context:\n" ++
          "The LLM had access to and successfully called the following tools to gather information:\n" ++
          String.join (t.steps.map (fun step => String.join (step.toolCalls.map toolCallPromptPart))) ++
          "\nThe LLM's answer should be evaluated based on how well it used this tool-provided data.\n"
      else prompt
    | none => prompt
  match eval.gradingRubric with
  | none => prompt
  | some r =>
    let prompt := prompt ++ "\n\n## Custom Grading Criteria\n\n" ++
      "Use the following specific criteria when scoring this response:\n\n"
    let prompt := match r.accuracy with
      | some c => prompt ++ formatDimensionCriteria "Accuracy" c
      | none => prompt
    let prompt := match r.completeness with
      | some c => prompt ++ formatDimensionCriteria "Completeness" c
      | none => prompt
    let prompt := match r.relevance with
      | some c => prompt ++ formatDimensionCriteria "Relevance" c
      | none => prompt
    let prompt := match r.clarity with
      | some c => prompt ++ formatDimensionCriteria "Clarity" c
      | none => prompt
    let prompt := match r.reasoning with
      | some c => prompt ++ formatDimensionCriteria "Reasoning" c
      | none => prompt
    if 0 < r.minimumScores.length then
      prompt ++ "\n### Minimum Acceptable Scores:\n" ++
        String.join (r.minimumScores.map (fun p => "- " ++ p.1 ++ ": " ++ toString p.2 ++ "/5\n"))
    else prompt

/-- Grading-model selection (gradeWithTrace 606-609). -/
def selectGradingModel (cfg : EvalClientConfig) : String :=
  if cfg.gradingModel ≠ "" then cfg.gradingModel else cfg.model

/-- Last-binding-wins field lookup, matching Go's object decoding. -/
def jsonFieldLookup (fields : List (String × JsonVal)) (key : String) : Option JsonVal :=
  fields.foldl (fun acc f => if f.1 = key then some f.2 else acc) none

/-- Parse a JSON number literal as a Go `int` (fractions and exponents are
rejected, as by `encoding/json`). -/
def parseIntLit (s : String) : Option Int :=
  let l := s.toList
  let p := match l with
    | '-' :: r => (true, r)
    | _ => (false, l)
  if p.2.isEmpty then none
  else if p.2.all Char.isDigit then
    let n : Nat := p.2.foldl (fun acc c => acc * 10 + (c.toNat - '0'.toNat)) 0
    some (if p.1 then -(n : Int) else (n : Int))
  else none

/-- Decode one integer field of `GradeResult` (missing key keeps the zero value). -/
def gradeIntField (fields : List (String × JsonVal)) (key : String) : Except String Int :=
  match jsonFieldLookup fields key with
  | none => .ok 0
  | some (.num raw) =>
    match parseIntLit raw with
    | some n => .ok n
    | none => .error ("cannot unmarshal number " ++ raw ++ " into " ++ key ++ " of type int")
  | some _ => .error ("cannot unmarshal value into " ++ key ++ " of type int")

/-- Decode the `overall_comments` field. -/
def gradeStrField (fields : List (String × JsonVal)) (key : String) : Except String String :=
  match jsonFieldLookup fields key with
  | none => .ok ""
  | some (.str s) => .ok s
  | some _ => .error ("cannot unmarshal value into " ++ key ++ " of type string")

/-- `json.Unmarshal([]byte(cleanedResponse), &gradeResult)`. -/
def unmarshalGradeResult (s : String) : Except String GradeResult :=
  match parseJsonDoc s with
  | none => .error "invalid JSON in grading response"
  | some .null => .ok default
  | some (.obj fields) => do
    let accuracy ← gradeIntField fields "accuracy"
    let completeness ← gradeIntField fields "completeness"
    let relevance ← gradeIntField fields "relevance"
    let clarity ← gradeIntField fields "clarity"
    let reasoning ← gradeIntField fields "reasoning"
    let overallComment ← gradeStrField fields "overall_comments"
    .ok { accuracy, completeness, relevance, clarity, reasoning, overallComment }
  | some _ => .error "cannot unmarshal non-object into GradeResult"

/-- `gradeWithTrace`: build the grading prompt, run the grading completion
(outcome `gradingCall`), and parse the score JSON.  The grading trace is
returned on every path. -/
def gradeWithTrace (cfg : EvalClientConfig) (eval : Eval) (evalResult : EvalResult)
    (execTrace : EvalTrace) (gradingCall : Except String GradingResponse) (clock : Nat) :
    Except String GradeResult × GradingTrace × Nat :=
  let startTime := clock
  let clock1 := clock + 1
  let gradingPrompt := buildGradingPrompt eval evalResult (some execTrace)
  let _gradingModel := selectGradingModel cfg
  let endTime := clock1
  let clock2 := clock1 + 1
  let trace1 : GradingTrace :=
    { userPrompt := eval.prompt, modelResponse := evalResult.rawResponse,
      expectedResult := eval.expectedResult, gradingPrompt,
      rawGradingOutput := "", startTime, endTime,
      duration := (endTime : Int) - (startTime : Int),
      inputTokens := 0, outputTokens := 0, cacheCreationInputTokens := 0,
      cacheReadInputTokens := 0, error := "" }
  match gradingCall with
  | .error msg =>
    (.error ("failed to get grading response: " ++ msg), { trace1 with error := msg }, clock2)
  | .ok resp =>
    let trace2 :=
      { trace1 with
        rawGradingOutput := resp.text
        inputTokens := resp.usage.inputTokens
        outputTokens := resp.usage.outputTokens
        cacheCreationInputTokens := resp.usage.cacheCreationInputTokens
        cacheReadInputTokens := resp.usage.cacheReadInputTokens }
    match extractJSONFromResponse resp.text with
    | (_, some e) =>
      (.error ("failed to extract JSON from grading response: " ++ e),
       { trace2 with error := e }, clock2)
    | (cleaned, none) =>
      match unmarshalGradeResult cleaned with
      | .error msg =>
        (.error ("failed to parse grading response: " ++ msg),
         { trace2 with error := msg }, clock2)
      | .ok g => (.ok g, trace2, clock2)

/-! ## RunEval and RunEvals -/

/-- The post-loop half of `RunEval` (lines 420-469): aggregate the trace,
grade with tracing, enforce minimum scores when enabled, fold the grading
cache metrics into the two cache totals, and assemble the `EvalRunResult`. -/
def finalizeRun (cfg : EvalClientConfig) (eval : Eval)
    (gradingCall : Except String GradingResponse) (stFin : LoopState)
    (overallStart : Nat) : EvalRunResult :=
  let trace0 : EvalTrace :=
    { steps := stFin.steps, grading := none, totalDuration := 0,
      totalInputTokens := 0, totalOutputTokens := 0,
      stepCount := stFin.steps.length, toolCallCount := 0,
      totalCacheCreationTokens := 0, totalCacheReadTokens := 0 }
  let trace1 := accumulateStepTotals trace0 stFin.steps
  let evalResult : EvalResult := { prompt := eval.prompt, rawResponse := stFin.finalText }
  let gr := gradeWithTrace cfg eval evalResult trace1 gradingCall stFin.clock
  let gradingTrace := gr.2.1
  let clock2 := gr.2.2
  let outcome : Option GradeResult × Option String :=
    match gr.1 with
    | .error msg => (none, some ("grading failed: " ++ msg))
    | .ok g =>
      (some g,
       if cfg.enforceMinimumScores = some true then
         CheckMinimumScores eval.gradingRubric g
       else none)
  let trace2 :=
    { trace1 with
      grading := some gradingTrace
      totalCacheCreationTokens :=
        trace1.totalCacheCreationTokens + gradingTrace.cacheCreationInputTokens
      totalCacheReadTokens :=
        trace1.totalCacheReadTokens + gradingTrace.cacheReadInputTokens }
  let trace3 := { trace2 with totalDuration := (clock2 : Int) - (overallStart : Int) }
  { eval, result := some evalResult, grade := outcome.1, error := outcome.2,
    trace := some trace3 }

/-- `RunEval`: open the MCP session, run the agentic loop, then finalize.
Mirrors the Go control flow: every fatal path returns only the error —
the result (and the trace inside it) is dropped. -/
def runEval (cfg : EvalClientConfig) (eval : Eval) (env : EvalEnv) (clock0 : Nat) :
    Except String EvalRunResult :=
  let overallStart := clock0
  let clock := clock0 + 1
  match env.connect with
  | .error msg => .error msg
  | .ok _ =>
    let lr := runLoop cfg eval env.stream env.toolCall cfg.maxSteps (initLoopState eval clock)
    match lr.2 with
    | .fatal e => .error e
    | .done => .ok (finalizeRun cfg eval env.gradingCall lr.1 overallStart)

/-- The orchestrator's per-index loop body of `RunEvals`: an errored eval is
recorded as `EvalRunResult{Eval: eval, Error: err}` and the batch continues. -/
def runEvalsAux (cfg : EvalClientConfig) (envs : Nat → EvalEnv) :
    Nat → List Eval → List EvalRunResult
  | _, [] => []
  | i, e :: rest =>
    (match runEval cfg e (envs i) 0 with
     | .error err =>
       { eval := e, result := none, grade := none, error := some err, trace := none }
     | .ok r => r) :: runEvalsAux cfg envs (i + 1) rest

/-- `RunEvals`: run the evals sequentially, isolating per-eval failures. -/
def runEvals (cfg : EvalClientConfig) (evals : List Eval) (envs : Nat → EvalEnv) :
    List EvalRunResult :=
  runEvalsAux cfg envs 0 evals

/-! ## Helper lemmas -/

/-- The timing invariant claimed for agentic steps. -/
def stepTimingOK (s : AgenticStep) : Prop :=
  s.startTime ≤ s.endTime ∧ s.duration = (s.endTime : Int) - (s.startTime : Int)

/-- The LLM-call record assembled by every loop iteration. -/
def stepCallOf (cfg : EvalClientConfig) (eval : Eval) : LLMCall :=
  { model := cfg.model, maxTokens := cfg.maxTokens,
    system := selectAgentPrompt cfg eval, systemCacheControl := systemCacheControl cfg }

lemma foldl_lastSome (P : String → Bool) (g : String → String) :
    ∀ (l : List String) (acc : Option String),
      l.foldl (fun a e => if P e then some (g e) else a) acc
        = match l.foldl (fun a e => if P e then some (g e) else a) none with
          | some v => some v
          | none => acc := by
  intro l
  induction l with
  | nil => intro acc; rfl
  | cons e l ih =>
    intro acc
    simp only [List.foldl_cons]
    rw [ih (if P e then some (g e) else acc), ih (if P e then some (g e) else none)]
    cases h : l.foldl (fun a e => if P e then some (g e) else a) none with
    | some v => rfl
    | none => by_cases hP : P e <;> simp [hP]

lemma lookupEnv_append (a b : List String) (key : String) :
    lookupEnv (a ++ b) key
      = match lookupEnv b key with
        | some v => some v
        | none => lookupEnv a key := by
  unfold lookupEnv
  rw [List.foldl_append]
  exact foldl_lastSome _ _ b (a.foldl _ none)

lemma accumulateStepTotals_spec :
    ∀ (steps : List AgenticStep) (t : EvalTrace),
      (accumulateStepTotals t steps).steps = t.steps ∧
      (accumulateStepTotals t steps).grading = t.grading ∧
      (accumulateStepTotals t steps).stepCount = t.stepCount ∧
      (accumulateStepTotals t steps).totalInputTokens
        = t.totalInputTokens + (steps.map (·.inputTokens)).sum ∧
      (accumulateStepTotals t steps).totalOutputTokens
        = t.totalOutputTokens + (steps.map (·.outputTokens)).sum ∧
      (accumulateStepTotals t steps).toolCallCount
        = t.toolCallCount + (steps.map (fun s => s.toolCalls.length)).sum ∧
      (accumulateStepTotals t steps).totalCacheCreationTokens
        = t.totalCacheCreationTokens + (steps.map (·.cacheCreationInputTokens)).sum ∧
      (accumulateStepTotals t steps).totalCacheReadTokens
        = t.totalCacheReadTokens + (steps.map (·.cacheReadInputTokens)).sum := by
  intro steps
  induction steps with
  | nil => intro t; simp [accumulateStepTotals]
  | cons s rest ih =>
    intro t
    have hstep : accumulateStepTotals t (s :: rest)
        = accumulateStepTotals
            { t with
              totalInputTokens := t.totalInputTokens + s.inputTokens
              totalOutputTokens := t.totalOutputTokens + s.outputTokens
              toolCallCount := t.toolCallCount + s.toolCalls.length
              totalCacheCreationTokens := t.totalCacheCreationTokens + s.cacheCreationInputTokens
              totalCacheReadTokens := t.totalCacheReadTokens + s.cacheReadInputTokens }
            rest := rfl
    rw [hstep]
    obtain ⟨h1, h2, h3, h4, h5, h6, h7, h8⟩ := ih
      { t with
        totalInputTokens := t.totalInputTokens + s.inputTokens
        totalOutputTokens := t.totalOutputTokens + s.outputTokens
        toolCallCount := t.toolCallCount + s.toolCalls.length
        totalCacheCreationTokens := t.totalCacheCreationTokens + s.cacheCreationInputTokens
        totalCacheReadTokens := t.totalCacheReadTokens + s.cacheReadInputTokens }
    refine ⟨h1, h2, h3, ?_, ?_, ?_, ?_, ?_⟩ <;>
      simp_all <;> omega

/-! ## C6 — minimum-score enforcement -/

/-- Claim C6: for every grade and non-nil rubric, `CheckMinimumScores` returns
nil when the `minimum_scores` map is empty or every listed dimension's graded
score meets its minimum; otherwise it returns the single error built from the
failure lines, and every failing dimension contributes its
`<dim>: got <n>, required <m>` line. -/
theorem claim_C6 (g : GradeResult) (r : GradingRubric) :
    (r.minimumScores = [] → CheckMinimumScores (some r) g = none) ∧
    ((∀ p ∈ r.minimumScores, p.2 ≤ dimScore g p.1) → CheckMinimumScores (some r) g = none) ∧
    ((∃ p ∈ r.minimumScores, dimScore g p.1 < p.2) →
      CheckMinimumScores (some r) g = some (minScoreErrorMessage (minScoreFailures r g)) ∧
      ∀ p ∈ r.minimumScores, dimScore g p.1 < p.2 →
        minScoreFailureLine p.1 (dimScore g p.1) p.2 ∈ minScoreFailures r g) := by
  refine ⟨?_, ?_, ?_⟩
  · intro h
    simp [CheckMinimumScores, h]
  · intro h
    unfold CheckMinimumScores
    by_cases hms : r.minimumScores.length = 0
    · simp [hms]
    · have hfail : minScoreFailures r g = [] := by
        unfold minScoreFailures
        rw [List.filterMap_eq_nil_iff]
        intro p hp
        simp [not_lt.mpr (h p hp)]
      simp [hms, hfail]
  · rintro ⟨p, hp, hlt⟩
    have hmem : ∀ q ∈ r.minimumScores, dimScore g q.1 < q.2 →
        minScoreFailureLine q.1 (dimScore g q.1) q.2 ∈ minScoreFailures r g := by
      intro q hq hqlt
      unfold minScoreFailures
      exact List.mem_filterMap.mpr ⟨q, hq, by simp [hqlt]⟩
    have hne : minScoreFailures r g ≠ [] := by
      intro h0
      have := hmem p hp hlt
      rw [h0] at this
      exact absurd this (List.not_mem_nil _)
    have hlen : 0 < (minScoreFailures r g).length := List.length_pos.mpr hne
    have hmslen : ¬ r.minimumScores.length = 0 := by
      intro h0
      rw [List.length_eq_zero] at h0
      rw [h0] at hp
      exact absurd hp (List.not_mem_nil _)
    refine ⟨?_, hmem⟩
    unfold CheckMinimumScores
    simp [hmslen, hlen]

/-- Witness for C6: a rubric requiring `accuracy ≥ 4` rejects a grade of 3
(naming `accuracy` with the actual and required values) and accepts a grade
of 4. -/
theorem claim_C6_witness :
    (CheckMinimumScores
        (some { dimensions := [], accuracy := none, completeness := none,
                relevance := none, clarity := none, reasoning := none,
                minimumScores := [("accuracy", 4)] })
        { accuracy := 3, completeness := 5, relevance := 5, clarity := 5,
          reasoning := 5, overallComment := "" }
      = some "eval failed minimum score requirements: accuracy: got 3, required 4. Review grading criteria or adjust rubric thresholds") ∧
    (CheckMinimumScores
        (some { dimensions := [], accuracy := none, completeness := none,
                relevance := none, clarity := none, reasoning := none,
                minimumScores := [("accuracy", 4)] })
        { accuracy := 4, completeness := 5, relevance := 5, clarity := 5,
          reasoning := 5, overallComment := "" }
      = none) := by
  constructor
  · have h := (claim_C6
      { accuracy := 3, completeness := 5, relevance := 5, clarity := 5,
        reasoning := 5, overallComment := "" }
      { dimensions := [], accuracy := none, completeness := none,
        relevance := none, clarity := none, reasoning := none,
        minimumScores := [("accuracy", 4)] }).2.2
      ⟨("accuracy", 4), by decide, by decide⟩
    rw [h.1]
    decide
  · exact (claim_C6
      { accuracy := 4, completeness := 5, relevance := 5, clarity := 5,
        reasoning := 5, overallComment := "" }
      { dimensions := [], accuracy := none, completeness := none,
        relevance := none, clarity := none, reasoning := none,
        minimumScores := [("accuracy", 4)] }).2.1 (by decide)

/-! ## C10 — unknown dimension names in minimum_scores -/

/-- Counterexample to C10 as stated: `CheckMinimumScores` does **not** always
report a non-canonical key — with required value 0 the comparison `0 < 0`
fails and the unknown key passes silently. -/
theorem claim_C10_counterexample :
    ("banana", (0 : Int)) ∈
      (GradingRubric.minimumScores
        { dimensions := [], accuracy := none, completeness := none,
          relevance := none, clarity := none, reasoning := none,
          minimumScores := [("banana", 0)] }) ∧
    "banana" ∉ ["accuracy", "completeness", "relevance", "clarity", "reasoning"] ∧
    CheckMinimumScores
        (some { dimensions := [], accuracy := none, completeness := none,
                relevance := none, clarity := none, reasoning := none,
                minimumScores := [("banana", 0)] })
        { accuracy := 5, completeness := 5, relevance := 5, clarity := 5,
          reasoning := 5, overallComment := "" }
      = none := by
  decide

/-- Claim C10 (amended): for a `minimum_scores` key outside the five canonical
dimension names with a required value of at least 1, `CheckMinimumScores`
scores the key as 0 and reports it as failing (`got 0`) regardless of the
grade; with a required value ≤ 0 the unknown key passes silently.  The
operation performs no dimension-name validation either way. -/
theorem claim_C10 (g : GradeResult) (r : GradingRubric) (d : String) (m : Int)
    (hmem : (d, m) ∈ r.minimumScores)
    (hd : d ∉ ["accuracy", "completeness", "relevance", "clarity", "reasoning"])
    (hm : 1 ≤ m) :
    dimScore g d = 0 ∧
    (∃ s, CheckMinimumScores (some r) g = some s) ∧
    minScoreFailureLine d 0 m ∈ minScoreFailures r g := by
  simp only [List.mem_cons, List.not_mem_nil, or_false, not_or] at hd
  obtain ⟨hd1, hd2, hd3, hd4, hd5⟩ := hd
  have hscore : dimScore g d = 0 := by
    unfold dimScore
    simp [hd1, hd2, hd3, hd4, hd5]
  have hline : minScoreFailureLine d 0 m ∈ minScoreFailures r g := by
    unfold minScoreFailures
    refine List.mem_filterMap.mpr ⟨(d, m), hmem, ?_⟩
    simp [hscore]
    omega
  have hne : minScoreFailures r g ≠ [] := by
    intro h0
    rw [h0] at hline
    exact absurd hline (List.not_mem_nil _)
  have hmslen : ¬ r.minimumScores.length = 0 := by
    intro h0
    rw [List.length_eq_zero] at h0
    rw [h0] at hmem
    exact absurd hmem (List.not_mem_nil _)
  refine ⟨hscore, ⟨minScoreErrorMessage (minScoreFailures r g), ?_⟩, hline⟩
  unfold CheckMinimumScores
  simp [hmslen, List.length_pos.mpr hne]

/-- Witness for C10 (amended): the unknown key `banana` with required value 2
is always reported with `got 0`. -/
theorem claim_C10_witness :
    dimScore
        { accuracy := 5, completeness := 5, relevance := 5, clarity := 5,
          reasoning := 5, overallComment := "" } "banana" = 0 ∧
    (∃ s, CheckMinimumScores
        (some { dimensions := [], accuracy := none, completeness := none,
                relevance := none, clarity := none, reasoning := none,
                minimumScores := [("banana", 2)] })
        { accuracy := 5, completeness := 5, relevance := 5, clarity := 5,
          reasoning := 5, overallComment := "" } = some s) ∧
    minScoreFailureLine "banana" 0 2 ∈ minScoreFailures
        { dimensions := [], accuracy := none, completeness := none,
          relevance := none, clarity := none, reasoning := none,
          minimumScores := [("banana", 2)] }
        { accuracy := 5, completeness := 5, relevance := 5, clarity := 5,
          reasoning := 5, overallComment := "" } :=
  claim_C10
    { accuracy := 5, completeness := 5, relevance := 5, clarity := 5,
      reasoning := 5, overallComment := "" }
    { dimensions := [], accuracy := none, completeness := none,
      relevance := none, clarity := none, reasoning := none,
      minimumScores := [("banana", 2)] }
    "banana" 2 (by decide) (by decide) (by decide)

/-! ## C8 — child process environment policy -/

/-- Claim C8: with non-empty `extra_env` the child environment is the parent
environment concatenated with the extra entries; with empty `extra_env` the
child inherits the parent environment verbatim.  Parent entries are always
preserved, keys bound in the extra entries win (last binding), and keys not
bound there resolve exactly as in the parent. -/
theorem claim_C8 (parent extra : List String) :
    (extra ≠ [] → childEnv parent extra = parent ++ extra) ∧
    (extra = [] → childEnv parent extra = parent) ∧
    (∀ e ∈ parent, e ∈ childEnv parent extra) ∧
    (∀ key v, lookupEnv extra key = some v →
      lookupEnv (childEnv parent extra) key = some v) ∧
    (∀ key, lookupEnv extra key = none →
      lookupEnv (childEnv parent extra) key = lookupEnv parent key) := by
  have hchild : childEnv parent extra = if 0 < extra.length then parent ++ extra else parent := rfl
  refine ⟨?_, ?_, ?_, ?_, ?_⟩
  · intro h
    rw [hchild, if_pos (List.length_pos.mpr h)]
  · intro h
    simp [childEnv, h]
  · intro e he
    rw [hchild]
    by_cases h : 0 < extra.length <;> simp [h]
    · exact Or.inl he
    · exact he
  · intro key v hv
    have hne : extra ≠ [] := by
      intro h0
      rw [h0] at hv
      simp [lookupEnv] at hv
    rw [hchild, if_pos (List.length_pos.mpr hne), lookupEnv_append, hv]
  · intro key hnone
    by_cases h : 0 < extra.length
    · rw [hchild, if_pos h, lookupEnv_append, hnone]
    · rw [hchild, if_neg h]

/-- Witness for C8: with parent `[PATH=/usr/bin, HOME=/root]` and extra
`[CUSTOM=v, PATH=/opt]` the child env is the concatenation, `CUSTOM` and the
overriding `PATH` resolve from the extra entries, and `HOME` still resolves
from the parent. -/
theorem claim_C8_witness :
    childEnv ["PATH=/usr/bin", "HOME=/root"] ["CUSTOM=v", "PATH=/opt"]
      = ["PATH=/usr/bin", "HOME=/root", "CUSTOM=v", "PATH=/opt"] ∧
    lookupEnv (childEnv ["PATH=/usr/bin", "HOME=/root"] ["CUSTOM=v", "PATH=/opt"]) "CUSTOM"
      = some "v" ∧
    lookupEnv (childEnv ["PATH=/usr/bin", "HOME=/root"] ["CUSTOM=v", "PATH=/opt"]) "PATH"
      = some "/opt" ∧
    lookupEnv (childEnv ["PATH=/usr/bin", "HOME=/root"] ["CUSTOM=v", "PATH=/opt"]) "HOME"
      = some "/root" ∧
    childEnv ["PATH=/usr/bin"] [] = ["PATH=/usr/bin"] := by
  have h := claim_C8 ["PATH=/usr/bin", "HOME=/root"] ["CUSTOM=v", "PATH=/opt"]
  have h0 := claim_C8 ["PATH=/usr/bin"] ([] : List String)
  refine ⟨?_, ?_, ?_, ?_, h0.2.1 rfl⟩
  · exact h.1 (by decide)
  · exact h.2.2.2.1 "CUSTOM" "v" (by decide)
  · exact h.2.2.2.1 "PATH" "/opt" (by decide)
  · rw [h.2.2.2.2 "HOME" (by decide)]
    decide

/-! ## C1 — the multi-strategy extractor never returns an error -/

/-- Counterexample to C1 as stated: on `"hello"` all four strategies fail,
yet `extractJSONFromResponse` returns the fence-stripped text with a **nil**
error (its final `return cleaned, nil`). -/
theorem claim_C1_counterexample :
    strategiesAllFail "hello" = true ∧
    extractJSONFromResponse "hello" = ("hello", none) := by
  decide

/-- Claim C1 (amended): the function `extractJSONFromResponse` never returns an error; when
all four strategies fail it returns the fence-stripped trimmed input with a
nil error (the `ParseError` the spec describes is raised only later, when the
caller fails to unmarshal that text). -/
theorem claim_C1 (s : String) :
    (extractJSONFromResponse s).2 = none ∧
    (strategiesAllFail s = true →
      (extractJSONFromResponse s).1 = stripMarkdownFences (goTrimSpace s)) := by
  constructor
  · simp only [extractJSONFromResponse]
    repeat' split
    all_goals rfl
  · intro h
    simp only [strategiesAllFail, Bool.and_eq_true, Bool.not_eq_true'] at h
    obtain ⟨⟨⟨h1, h2⟩, h3⟩, h4⟩ := h
    simp only [extractJSONFromResponse, h1, h2, Bool.false_eq_true, if_false]
    cases hC : extractJSONWithRegex (goTrimSpace s) with
    | ok e3 =>
      rw [hC] at h3
      simp only [Bool.not_eq_true'] at h3
      cases hD : extractJSONByScanning (goTrimSpace s) with
      | ok e4 =>
        rw [hD] at h4
        simp only [Bool.not_eq_true'] at h4
        simp [h3, h4]
      | error e4 => simp [h3]
    | error e3 =>
      cases hD : extractJSONByScanning (goTrimSpace s) with
      | ok e4 =>
        rw [hD] at h4
        simp only [Bool.not_eq_true'] at h4
        simp [h4]
      | error e4 => simp

/-- Witness for C1 (amended), at the input `"hello"`. -/
theorem claim_C1_witness :
    (extractJSONFromResponse "hello").2 = none ∧
    (extractJSONFromResponse "hello").1 = "hello" := by
  refine ⟨(claim_C1 "hello").1, ?_⟩
  have h := (claim_C1 "hello").2 (by decide)
  rw [h]
  decide

/-! ## C9 — tool-call trace invariant -/

/-- Claim C9: a traced tool call that failed carries a non-empty error message
(granted the transport never reports an empty one) and an output encoding
`\x7b"error": <msg>\x7d`; a successful call's output encodes
`\x7b"result": <flattened content>\x7d` with text verbatim, images as
`[Image: <mime>]` and resources as `[Resource: <uri>]`. -/
theorem claim_C9 (callResult : Except String (List MCPContent))
    (toolUseID toolUseName : String) (input : JsonVal) (clock : Nat)
    (hmsg : ∀ m, callResult = .error m → m ≠ "") :
    ((executeAndTraceToolCall callResult toolUseID toolUseName input clock).1.success = false →
      (executeAndTraceToolCall callResult toolUseID toolUseName input clock).1.error ≠ "" ∧
      (executeAndTraceToolCall callResult toolUseID toolUseName input clock).1.output
        = .obj [("error",
            .str ((executeAndTraceToolCall callResult toolUseID toolUseName input clock).1.error))]) ∧
    (∀ blocks, callResult = .ok blocks →
      (executeAndTraceToolCall callResult toolUseID toolUseName input clock).1.success = true ∧
      (executeAndTraceToolCall callResult toolUseID toolUseName input clock).1.output
        = .obj [("result", .str (flattenContent blocks))]) := by
  cases callResult with
  | error msg =>
    refine ⟨fun _ => ⟨hmsg msg rfl, rfl⟩, ?_⟩
    intro blocks hb
    cases hb
  | ok blocks =>
    constructor
    · intro hfalse
      simp [executeAndTraceToolCall] at hfalse
    · intro blocks' hb
      injection hb with hb'
      subst hb'
      exact ⟨rfl, rfl⟩

/-- Witness for C9 at a failed call with transport error `"boom"`. -/
theorem claim_C9_witness :
    (executeAndTraceToolCall (.error "boom") "t1" "add" .null 5).1.error ≠ "" ∧
    (executeAndTraceToolCall (.error "boom") "t1" "add" .null 5).1.output
      = .obj [("error",
          .str ((executeAndTraceToolCall (.error "boom") "t1" "add" .null 5).1.error))] :=
  (claim_C9 (.error "boom") "t1" "add" .null 5
    (fun m h => by injection h with h'; rw [← h']; decide)).1 rfl

/-! ## Loop characterization lemmas -/

lemma executeAndTraceToolCall_clock (callResult : Except String (List MCPContent))
    (id name : String) (input : JsonVal) (clock : Nat) :
    (executeAndTraceToolCall callResult id name input clock).2 = clock + 2 := by
  cases callResult <;> rfl

lemma executeAndTraceToolCall_ids (callResult : Except String (List MCPContent))
    (id name : String) (input : JsonVal) (clock : Nat) :
    (executeAndTraceToolCall callResult id name input clock).1.toolID = id ∧
    (executeAndTraceToolCall callResult id name input clock).1.toolName = name := by
  cases callResult <;> exact ⟨rfl, rfl⟩

lemma execToolBlocks_clock_le (tO : Nat → Except String (List MCPContent)) :
    ∀ (blocks : List ContentBlock) (toolIdx clock : Nat),
      clock ≤ (execToolBlocks tO blocks toolIdx clock).2.2.2 := by
  intro blocks
  induction blocks with
  | nil => intro toolIdx clock; simp [execToolBlocks]
  | cons b rest ih =>
    intro toolIdx clock
    cases b with
    | text t => simpa [execToolBlocks] using ih toolIdx clock
    | toolUse id name input =>
      have h1 := executeAndTraceToolCall_clock (tO toolIdx) id name input clock
      have h2 := ih (toolIdx + 1) (executeAndTraceToolCall (tO toolIdx) id name input clock).2
      simp only [execToolBlocks]
      omega

lemma execToolBlocks_results (tO : Nat → Except String (List MCPContent)) :
    ∀ (blocks : List ContentBlock) (toolIdx clock : Nat),
      (execToolBlocks tO blocks toolIdx clock).2.1
        = (execToolBlocks tO blocks toolIdx clock).1.map mkToolResultBlock ∧
      (execToolBlocks tO blocks toolIdx clock).1.map (fun tc => (tc.toolID, tc.toolName))
        = blocks.filterMap (fun b =>
            match b with
            | .toolUse id name _ => some (id, name)
            | .text _ => none) := by
  intro blocks
  induction blocks with
  | nil => intro toolIdx clock; simp [execToolBlocks]
  | cons b rest ih =>
    intro toolIdx clock
    cases b with
    | text t => simpa [execToolBlocks] using ih toolIdx clock
    | toolUse id name input =>
      obtain ⟨ih1, ih2⟩ :=
        ih (toolIdx + 1) (executeAndTraceToolCall (tO toolIdx) id name input clock).2
      obtain ⟨hid, hname⟩ := executeAndTraceToolCall_ids (tO toolIdx) id name input clock
      simp only [execToolBlocks, List.map_cons, List.filterMap_cons]
      exact ⟨by rw [ih1], by rw [ih2, hid, hname]⟩

lemma runStepIter_next_spec (cfg : EvalClientConfig) (eval : Eval)
    (sO : Nat → StreamOutcome) (tO : Nat → Except String (List MCPContent))
    (st st' : LoopState) (h : runStepIter cfg eval sO tO st = .next st') :
    st'.llmCalls = st.llmCalls ++ [stepCallOf cfg eval] ∧
    ∃ stp, st'.steps = st.steps ++ [stp] ∧ stepTimingOK stp := by
  unfold runStepIter at h
  cases hS : sO st.llmIdx <;> rw [hS] at h
  · cases h
  · cases h
  · next m =>
    dsimp only at h
    split at h
    · cases h
    · split at h
      · cases h
      · injection h with h'
        subst h'
        refine ⟨rfl, ?_⟩
        refine ⟨_, rfl, ?_⟩
        constructor
        · have := execToolBlocks_clock_le tO m.content st.toolIdx (st.clock + 1)
          simpa using Nat.le_of_succ_le this
        · rfl

lemma runStepIter_halt_done_spec (cfg : EvalClientConfig) (eval : Eval)
    (sO : Nat → StreamOutcome) (tO : Nat → Except String (List MCPContent))
    (st st' : LoopState) (h : runStepIter cfg eval sO tO st = .halt st' .done) :
    st'.llmCalls = st.llmCalls ++ [stepCallOf cfg eval] ∧
    ∃ stp, st'.steps = st.steps ++ [stp] ∧ stepTimingOK stp := by
  unfold runStepIter at h
  cases hS : sO st.llmIdx <;> rw [hS] at h
  · cases h
  · cases h
  · next m =>
    dsimp only at h
    split at h
    · injection h with h1 h2
      subst h1
      refine ⟨rfl, ?_⟩
      refine ⟨_, rfl, ?_⟩
      exact ⟨Nat.le_succ _, rfl⟩
    · split at h
      · injection h with h1 h2
        subst h1
        refine ⟨rfl, ?_⟩
        refine ⟨_, rfl, ?_⟩
        constructor
        · have := execToolBlocks_clock_le tO m.content st.toolIdx (st.clock + 1)
          simpa using Nat.le_of_succ_le this
        · rfl
      · cases h

lemma runStepIter_halt_fatal_spec (cfg : EvalClientConfig) (eval : Eval)
    (sO : Nat → StreamOutcome) (tO : Nat → Except String (List MCPContent))
    (st st' : LoopState) (e : String)
    (h : runStepIter cfg eval sO tO st = .halt st' (.fatal e)) :
    st'.llmCalls = st.llmCalls ++ [stepCallOf cfg eval] ∧
    ∃ msg stp,
      (e = "failed to accumulate event: " ++ msg ∨ e = "streaming error: " ++ msg) ∧
      st'.steps = st.steps ++ [stp] ∧ stp.error = msg ∧ stp.endTime = 0 ∧
      stp.duration = 0 := by
  unfold runStepIter at h
  cases hS : sO st.llmIdx <;> rw [hS] at h
  · next msg =>
    injection h with h1 h2
    subst h1
    injection h2 with h3
    exact ⟨rfl, msg, _, Or.inl h3.symm, rfl, rfl, rfl, rfl⟩
  · next msg =>
    injection h with h1 h2
    subst h1
    injection h2 with h3
    exact ⟨rfl, msg, _, Or.inr h3.symm, rfl, rfl, rfl, rfl⟩
  · next m =>
    dsimp only at h
    split at h
    · injection h with h1 h2
      cases h2
    · split at h
      · injection h with h1 h2
        cases h2
      · cases h

lemma runLoop_llmCalls_system (cfg : EvalClientConfig) (eval : Eval)
    (sO : Nat → StreamOutcome) (tO : Nat → Except String (List MCPContent)) :
    ∀ (fuel : Nat) (st : LoopState),
      (∀ c ∈ st.llmCalls, c.system = selectAgentPrompt cfg eval) →
      ∀ c ∈ (runLoop cfg eval sO tO fuel st).1.llmCalls,
        c.system = selectAgentPrompt cfg eval := by
  intro fuel
  induction fuel with
  | zero => intro st h; simpa [runLoop] using h
  | succ n ih =>
    intro st h
    unfold runLoop
    cases hI : runStepIter cfg eval sO tO st with
    | next st' =>
      apply ih st'
      intro c hc
      obtain ⟨hcalls, _⟩ := runStepIter_next_spec cfg eval sO tO st st' hI
      rw [hcalls] at hc
      rcases List.mem_append.mp hc with hmem | hmem
      · exact h c hmem
      · rw [List.mem_singleton.mp hmem]
        rfl
    | halt st' ex =>
      intro c hc
      have hcalls : st'.llmCalls = st.llmCalls ++ [stepCallOf cfg eval] := by
        cases ex with
        | done => exact (runStepIter_halt_done_spec cfg eval sO tO st st' hI).1
        | fatal e => exact (runStepIter_halt_fatal_spec cfg eval sO tO st st' e hI).1
      simp only at hc
      rw [hcalls] at hc
      rcases List.mem_append.mp hc with hmem | hmem
      · exact h c hmem
      · rw [List.mem_singleton.mp hmem]
        rfl

lemma runLoop_done_stepTiming (cfg : EvalClientConfig) (eval : Eval)
    (sO : Nat → StreamOutcome) (tO : Nat → Except String (List MCPContent)) :
    ∀ (fuel : Nat) (st : LoopState),
      (∀ s ∈ st.steps, stepTimingOK s) →
      (runLoop cfg eval sO tO fuel st).2 = .done →
      ∀ s ∈ (runLoop cfg eval sO tO fuel st).1.steps, stepTimingOK s := by
  intro fuel
  induction fuel with
  | zero => intro st h _; simpa [runLoop] using h
  | succ n ih =>
    intro st h hdone
    unfold runLoop at hdone ⊢
    cases hI : runStepIter cfg eval sO tO st with
    | next st' =>
      rw [hI] at hdone
      apply ih st' ?_ hdone
      intro s hs
      obtain ⟨_, stp, hsteps, hok⟩ := runStepIter_next_spec cfg eval sO tO st st' hI
      rw [hsteps] at hs
      rcases List.mem_append.mp hs with hmem | hmem
      · exact h s hmem
      · rw [List.mem_singleton.mp hmem]
        exact hok
    | halt st' ex =>
      rw [hI] at hdone
      simp only at hdone
      subst hdone
      intro s hs
      obtain ⟨_, stp, hsteps, hok⟩ := runStepIter_halt_done_spec cfg eval sO tO st st' hI
      simp only at hs
      rw [hsteps] at hs
      rcases List.mem_append.mp hs with hmem | hmem
      · exact h s hmem
      · rw [List.mem_singleton.mp hmem]
        exact hok

lemma runLoop_fatal_lastStep (cfg : EvalClientConfig) (eval : Eval)
    (sO : Nat → StreamOutcome) (tO : Nat → Except String (List MCPContent)) :
    ∀ (fuel : Nat) (st : LoopState) (e : String),
      (runLoop cfg eval sO tO fuel st).2 = .fatal e →
      ∃ msg stp,
        (e = "failed to accumulate event: " ++ msg ∨ e = "streaming error: " ++ msg) ∧
        (runLoop cfg eval sO tO fuel st).1.steps.getLast? = some stp ∧
        stp.error = msg ∧ stp.endTime = 0 ∧ stp.duration = 0 := by
  intro fuel
  induction fuel with
  | zero =>
    intro st e h
    simp [runLoop] at h
  | succ n ih =>
    intro st e h
    unfold runLoop at h ⊢
    cases hI : runStepIter cfg eval sO tO st with
    | next st' =>
      rw [hI] at h
      simp only at h ⊢
      exact ih st' e h
    | halt st' ex =>
      rw [hI] at h
      simp only at h ⊢
      subst h
      obtain ⟨_, msg, stp, hor, hsteps, herr, hend, hdur⟩ :=
        runStepIter_halt_fatal_spec cfg eval sO tO st st' e hI
      refine ⟨msg, stp, hor, ?_, herr, hend, hdur⟩
      simp only [hsteps]
      exact List.getLast?_concat _

/-! ## C7 — agent system prompt precedence -/

/-- Claim C7: every LLM call issued by the agentic loop carries the system
prompt chosen by precedence — the per-eval override when non-empty, else the
client-config override when non-empty, else the built-in default; when both
overrides are set (and differ) the eval-level string is used and the
client-level string is not. -/
theorem claim_C7 (cfg : EvalClientConfig) (eval : Eval) (sO : Nat → StreamOutcome)
    (tO : Nat → Except String (List MCPContent)) (fuel : Nat) (st : LoopState)
    (h : ∀ c ∈ st.llmCalls, c.system = selectAgentPrompt cfg eval) :
    (∀ c ∈ (runLoop cfg eval sO tO fuel st).1.llmCalls,
      c.system = selectAgentPrompt cfg eval) ∧
    (eval.agentSystemPrompt ≠ "" →
      selectAgentPrompt cfg eval = eval.agentSystemPrompt) ∧
    (eval.agentSystemPrompt = "" → cfg.agentSystemPrompt ≠ "" →
      selectAgentPrompt cfg eval = cfg.agentSystemPrompt) ∧
    (eval.agentSystemPrompt = "" → cfg.agentSystemPrompt = "" →
      selectAgentPrompt cfg eval = AgentSystemPrompt) ∧
    (eval.agentSystemPrompt ≠ "" → eval.agentSystemPrompt ≠ cfg.agentSystemPrompt →
      selectAgentPrompt cfg eval ≠ cfg.agentSystemPrompt) := by
  refine ⟨runLoop_llmCalls_system cfg eval sO tO fuel st h, ?_, ?_, ?_, ?_⟩
  · intro he
    simp [selectAgentPrompt, he]
  · intro he hc
    simp [selectAgentPrompt, he, hc]
  · intro he hc
    simp [selectAgentPrompt, he, hc]
  · intro he hne
    simp only [selectAgentPrompt, if_pos he]
    exact hne

def cfgC7 : EvalClientConfig :=
  { command := "srv", args := [], env := [], model := "m", gradingModel := "",
    agentSystemPrompt := "cfg-prompt", maxSteps := 10, maxTokens := 4096,
    enablePromptCaching := some true, cacheTTL := "5m", enforceMinimumScores := some true }

def evalC7 : Eval :=
  { name := "e", description := "", prompt := "p", expectedResult := "",
    agentSystemPrompt := "eval-prompt", gradingRubric := none }

/-- Witness for C7: with both overrides set, the single LLM call of a
one-iteration run carries the eval-level prompt, not the client-level one. -/
theorem claim_C7_witness :
    (runLoop cfgC7 evalC7 (fun _ => .streamFail "x") (fun _ => .error "y") 1
        (initLoopState evalC7 1)).1.llmCalls.map LLMCall.system = ["eval-prompt"] ∧
    selectAgentPrompt cfgC7 evalC7 = "eval-prompt" ∧
    cfgC7.agentSystemPrompt = "cfg-prompt" := by
  have h := claim_C7 cfgC7 evalC7 (fun _ => .streamFail "x") (fun _ => .error "y") 1
    (initLoopState evalC7 1) (fun c hc => by simp [initLoopState] at hc)
  have hsel : selectAgentPrompt cfgC7 evalC7 = "eval-prompt" := h.2.1 (by decide)
  refine ⟨?_, hsel, rfl⟩
  have hmap : (runLoop cfgC7 evalC7 (fun _ => .streamFail "x") (fun _ => .error "y") 1
      (initLoopState evalC7 1)).1.llmCalls.map LLMCall.system
        = [selectAgentPrompt cfgC7 evalC7] := rfl
  rw [hmap, hsel]

/-! ## C4 — tool execution and the tool-result user turn -/

/-- Claim C4 (amended): on a `tool_use` stop the loop executes each
`tool_use` block in order (text blocks skipped), records the traced calls on
the step, and appends one user-turn carrying one tool-result block per call
whose `is_error` flag is the negation of the call's success flag; the block's
content is the call's output JSON string for successful calls but the
`Error calling tool:` message for failed ones. -/
theorem claim_C4 (cfg : EvalClientConfig) (eval : Eval) (sO : Nat → StreamOutcome)
    (tO : Nat → Except String (List MCPContent)) (st : LoopState) (m : ModelMessage)
    (hstream : sO st.llmIdx = .ok m) (hstop : m.stopReason = "tool_use")
    (hblks : (execToolBlocks tO m.content st.toolIdx (st.clock + 1)).2.1 ≠ []) :
    ((execToolBlocks tO m.content st.toolIdx (st.clock + 1)).1.map
        (fun tc => (tc.toolID, tc.toolName))
      = m.content.filterMap (fun b =>
          match b with
          | .toolUse id name _ => some (id, name)
          | .text _ => none)) ∧
    ((execToolBlocks tO m.content st.toolIdx (st.clock + 1)).2.1
      = (execToolBlocks tO m.content st.toolIdx (st.clock + 1)).1.map
          (fun tc => MsgBlock.toolResult tc.toolID
            (if tc.success then renderJson tc.output
             else "Error calling tool: " ++ tc.error)
            (!tc.success))) ∧
    ∃ st', runStepIter cfg eval sO tO st = .next st' ∧
      st'.messages = st.messages ++ [.assistant m.content,
        .user (execToolBlocks tO m.content st.toolIdx (st.clock + 1)).2.1] ∧
      ∃ stp, st'.steps = st.steps ++ [stp] ∧
        stp.toolCalls = (execToolBlocks tO m.content st.toolIdx (st.clock + 1)).1 := by
  obtain ⟨hres, hids⟩ := execToolBlocks_results tO m.content st.toolIdx (st.clock + 1)
  refine ⟨hids, by rw [hres]; rfl, ?_⟩
  unfold runStepIter
  rw [hstream]
  dsimp only
  rw [if_neg (by simp [hstop])]
  rw [if_neg (by simp only [List.isEmpty_iff]; exact hblks)]
  refine ⟨_, rfl, ?_, ?_⟩
  · dsimp only
    rw [List.append_assoc]
    rfl
  · exact ⟨_, rfl, rfl⟩

/-- Counterexample to C4 as stated: for a failed call the tool-result content
is the `Error calling tool:` message, not the call's output JSON string
(which encodes `\x7b"error": ...\x7d`). -/
theorem claim_C4_counterexample :
    (execToolBlocks (fun _ => .error "boom") [ContentBlock.toolUse "t1" "add" .null] 0 1).2.1
      = [MsgBlock.toolResult "t1" "Error calling tool: boom" true] ∧
    (execToolBlocks (fun _ => .error "boom") [ContentBlock.toolUse "t1" "add" .null] 0 1).1.map
        (fun tc => renderJson tc.output) = ["\x7b\"error\":\"boom\"\x7d"] ∧
    ("Error calling tool: boom" : String) ≠ "\x7b\"error\":\"boom\"\x7d" := by
  decide

def cfgC4 : EvalClientConfig :=
  { command := "srv", args := [], env := [], model := "m", gradingModel := "",
    agentSystemPrompt := "", maxSteps := 10, maxTokens := 4096,
    enablePromptCaching := some true, cacheTTL := "5m", enforceMinimumScores := some true }

def evalC4 : Eval :=
  { name := "e", description := "", prompt := "What is 5 plus 3?", expectedResult := "",
    agentSystemPrompt := "", gradingRubric := none }

def msgC4 : ModelMessage :=
  { content := [.text "calling", .toolUse "t1" "add" (.obj [("a", .num "5")])],
    stopReason := "tool_use",
    usage := { inputTokens := 1, outputTokens := 2, cacheCreationInputTokens := 0,
               cacheReadInputTokens := 0 },
    deltaText := "calling" }

/-- Witness for C4 (amended), with one text block and one successful
`tool_use` block. -/
theorem claim_C4_witness :
    ((execToolBlocks (fun _ => .ok [.text "8"]) msgC4.content
        (initLoopState evalC4 1).toolIdx ((initLoopState evalC4 1).clock + 1)).1.map
        (fun tc => (tc.toolID, tc.toolName)) = [("t1", "add")]) ∧
    ∃ st', runStepIter cfgC4 evalC4 (fun _ => .ok msgC4) (fun _ => .ok [.text "8"])
        (initLoopState evalC4 1) = .next st' ∧
      st'.messages = (initLoopState evalC4 1).messages ++ [.assistant msgC4.content,
        .user (execToolBlocks (fun _ => .ok [.text "8"]) msgC4.content
          (initLoopState evalC4 1).toolIdx ((initLoopState evalC4 1).clock + 1)).2.1] := by
  have h := claim_C4 cfgC4 evalC4 (fun _ => .ok msgC4) (fun _ => .ok [.text "8"])
    (initLoopState evalC4 1) msgC4 rfl rfl (by decide)
  refine ⟨?_, ?_⟩
  · rw [h.1]
    decide
  · obtain ⟨st', hrun, hmsg, _⟩ := h.2.2
    exact ⟨st', hrun, hmsg⟩

/-! ## RunEval / RunEvals structure lemmas -/

lemma runEval_ok_inv (cfg : EvalClientConfig) (eval : Eval) (env : EvalEnv) (clock0 : Nat)
    (r : EvalRunResult) (h : runEval cfg eval env clock0 = .ok r) :
    (runLoop cfg eval env.stream env.toolCall cfg.maxSteps
        (initLoopState eval (clock0 + 1))).2 = .done ∧
    r = finalizeRun cfg eval env.gradingCall
        (runLoop cfg eval env.stream env.toolCall cfg.maxSteps
          (initLoopState eval (clock0 + 1))).1 clock0 := by
  unfold runEval at h
  cases hc : env.connect with
  | error m =>
    rw [hc] at h
    cases h
  | ok u =>
    rw [hc] at h
    dsimp only at h
    cases hlr : (runLoop cfg eval env.stream env.toolCall cfg.maxSteps
        (initLoopState eval (clock0 + 1))).2 with
    | fatal e =>
      rw [hlr] at h
      cases h
    | done =>
      rw [hlr] at h
      injection h with h'
      exact ⟨rfl, h'.symm⟩

lemma finalizeRun_trace_spec (cfg : EvalClientConfig) (eval : Eval)
    (gc : Except String GradingResponse) (stFin : LoopState) (start : Nat) :
    ∃ t gt, (finalizeRun cfg eval gc stFin start).trace = some t ∧
      t.grading = some gt ∧
      t.steps = stFin.steps ∧
      t.stepCount = t.steps.length ∧
      t.totalInputTokens = (t.steps.map (·.inputTokens)).sum ∧
      t.totalOutputTokens = (t.steps.map (·.outputTokens)).sum ∧
      t.toolCallCount = (t.steps.map (fun s => s.toolCalls.length)).sum ∧
      t.totalCacheCreationTokens
        = (t.steps.map (·.cacheCreationInputTokens)).sum + gt.cacheCreationInputTokens ∧
      t.totalCacheReadTokens
        = (t.steps.map (·.cacheReadInputTokens)).sum + gt.cacheReadInputTokens := by
  obtain ⟨hsteps, hgrading, hcount, hin, hout, htc, hcc, hcr⟩ :=
    accumulateStepTotals_spec stFin.steps
      { steps := stFin.steps, grading := none, totalDuration := 0,
        totalInputTokens := 0, totalOutputTokens := 0,
        stepCount := stFin.steps.length, toolCallCount := 0,
        totalCacheCreationTokens := 0, totalCacheReadTokens := 0 }
  unfold finalizeRun
  dsimp only
  refine ⟨_, _, rfl, rfl, ?_, ?_, ?_, ?_, ?_, ?_, ?_⟩
  · simpa using hsteps
  · simp only [hcount, hsteps]
  · simp only [hin, hsteps]
    simp
  · simp only [hout, hsteps]
    simp
  · simp only [htc, hsteps]
    simp
  · simp only [hcc, hsteps]
    simp
  · simp only [hcr, hsteps]
    simp

lemma runEvalsAux_error_get (cfg : EvalClientConfig) (envs : Nat → EvalEnv) :
    ∀ (evals : List Eval) (i j : Nat) (e : Eval) (err : String),
      evals[j]? = some e → runEval cfg e (envs (i + j)) 0 = .error err →
      (runEvalsAux cfg envs i evals)[j]?
        = some { eval := e, result := none, grade := none, error := some err,
                 trace := none } := by
  intro evals
  induction evals with
  | nil =>
    intro i j e err hget _
    simp at hget
  | cons hd tl ih =>
    intro i j e err hget herr
    cases j with
    | zero =>
      simp only [List.getElem?_cons_zero, Option.some.injEq] at hget
      subst hget
      rw [Nat.add_zero] at herr
      simp only [runEvalsAux, List.getElem?_cons_zero, herr]
    | succ k =>
      simp only [List.getElem?_cons_succ] at hget
      have heq : i + (k + 1) = (i + 1) + k := by omega
      rw [heq] at herr
      simpa only [runEvalsAux, List.getElem?_cons_succ] using ih (i + 1) k e err hget herr

/-! ## C2 — fatal stream errors and the batch orchestrator -/

/-- Claim C2 (amended): when the loop hits a fatal error the failing step is
recorded with its error and appended to the loop's in-memory trace, and the
loop unwinds with an `accumulate`/`streaming error` message — but `RunEval`
returns a nil result, so the `EvalRunResult` recorded by `RunEvals` for that
eval carries the error with **no** trace (`Trace` nil): the partial trace is
not attached. -/
theorem claim_C2 :
    (∀ (cfg : EvalClientConfig) (eval : Eval) (sO : Nat → StreamOutcome)
        (tO : Nat → Except String (List MCPContent)) (fuel : Nat) (st : LoopState)
        (e : String),
      (runLoop cfg eval sO tO fuel st).2 = .fatal e →
      ∃ msg stp,
        (e = "failed to accumulate event: " ++ msg ∨ e = "streaming error: " ++ msg) ∧
        (runLoop cfg eval sO tO fuel st).1.steps.getLast? = some stp ∧
        stp.error = msg) ∧
    (∀ (cfg : EvalClientConfig) (envs : Nat → EvalEnv) (evals : List Eval) (j : Nat)
        (e : Eval) (err : String),
      evals[j]? = some e → runEval cfg e (envs j) 0 = .error err →
      (runEvals cfg evals envs)[j]?
        = some { eval := e, result := none, grade := none, error := some err,
                 trace := none }) := by
  constructor
  · intro cfg eval sO tO fuel st e h
    obtain ⟨msg, stp, hor, hlast, herr, _, _⟩ :=
      runLoop_fatal_lastStep cfg eval sO tO fuel st e h
    exact ⟨msg, stp, hor, hlast, herr⟩
  · intro cfg envs evals j e err hget herr
    have herr' : runEval cfg e (envs (0 + j)) 0 = .error err := by
      rw [Nat.zero_add]
      exact herr
    exact runEvalsAux_error_get cfg envs evals 0 j e err hget herr'

def cfgC2 : EvalClientConfig :=
  { command := "srv", args := [], env := [], model := "m", gradingModel := "",
    agentSystemPrompt := "", maxSteps := 10, maxTokens := 4096,
    enablePromptCaching := some true, cacheTTL := "5m", enforceMinimumScores := some true }

def evalC2 : Eval :=
  { name := "e", description := "", prompt := "p", expectedResult := "",
    agentSystemPrompt := "", gradingRubric := none }

def envC2 : EvalEnv :=
  { connect := .ok ()
    stream := fun _ => .streamFail "boom"
    toolCall := fun _ => .error "x"
    gradingCall := .error "no" }

/-- Counterexample to C2 as stated: in a concrete errored run the loop's
in-memory trace contains the step with its error, yet the orchestrator's
recorded `EvalRunResult` has a nil trace (and nil result). -/
theorem claim_C2_counterexample :
    ((runEvals cfgC2 [evalC2] (fun _ => envC2)).map
        (fun r => (r.error, r.trace.isSome, r.result.isSome)))
      = [(some "streaming error: boom", false, false)] ∧
    (runLoop cfgC2 evalC2 envC2.stream envC2.toolCall cfgC2.maxSteps
        (initLoopState evalC2 1)).1.steps.map (fun s => s.error) = ["boom"] := by
  decide

/-- Witness for C2 (amended) at the concrete errored batch. -/
theorem claim_C2_witness :
    (runEvals cfgC2 [evalC2] (fun _ => envC2))[0]?
      = some { eval := evalC2, result := none, grade := none,
               error := some "streaming error: boom", trace := none } :=
  claim_C2.2 cfgC2 (fun _ => envC2) [evalC2] 0 evalC2 "streaming error: boom" rfl rfl

/-! ## C3 — step timing invariant -/

/-- Claim C3 (amended): in the trace of every completed run, each step
satisfies `start_time ≤ end_time` and `duration = end_time − start_time`;
on the stream-error path the step is appended with the zero end time and a
zero duration, so the invariant fails there whenever the start time is a
positive instant. -/
theorem claim_C3 (cfg : EvalClientConfig) (eval : Eval) (env : EvalEnv) (clock0 : Nat)
    (r : EvalRunResult) (t : EvalTrace)
    (h : runEval cfg eval env clock0 = .ok r) (ht : r.trace = some t) :
    ∀ s ∈ t.steps, s.startTime ≤ s.endTime ∧
      s.duration = (s.endTime : Int) - (s.startTime : Int) := by
  obtain ⟨hdone, hr⟩ := runEval_ok_inv cfg eval env clock0 r h
  obtain ⟨t', gt, htr, _, hsteps, _⟩ := finalizeRun_trace_spec cfg eval env.gradingCall
    (runLoop cfg eval env.stream env.toolCall cfg.maxSteps
      (initLoopState eval (clock0 + 1))).1 clock0
  rw [hr, htr] at ht
  injection ht with ht'
  subst ht'
  rw [hsteps]
  exact runLoop_done_stepTiming cfg eval env.stream env.toolCall cfg.maxSteps
    (initLoopState eval (clock0 + 1)) (fun s hs => by simp [initLoopState] at hs) hdone

def cfgC3 : EvalClientConfig :=
  { command := "srv", args := [], env := [], model := "m", gradingModel := "",
    agentSystemPrompt := "", maxSteps := 10, maxTokens := 4096,
    enablePromptCaching := some true, cacheTTL := "5m", enforceMinimumScores := some true }

def evalC3 : Eval :=
  { name := "e", description := "", prompt := "p", expectedResult := "",
    agentSystemPrompt := "", gradingRubric := none }

/-- Counterexample to C3 as stated: the step recorded on the stream-error
path has `start_time 1`, `end_time 0` (the zero value) and `duration 0`, so
`start_time ≤ end_time ∧ duration = end_time − start_time` fails. -/
theorem claim_C3_counterexample :
    ((runLoop cfgC3 evalC3 (fun _ => .streamFail "boom") (fun _ => .error "x") 10
        (initLoopState evalC3 1)).1.steps.map
        (fun s => (s.startTime, s.endTime, s.duration)))
      = [(1, 0, 0)] ∧
    ¬ ((1 : Nat) ≤ 0 ∧ (0 : Int) = (0 : Int) - (1 : Int)) := by
  decide

def envC3 : EvalEnv :=
  { connect := .ok ()
    stream := fun _ => .ok
      { content := [.text "done"], stopReason := "end_turn",
        usage := { inputTokens := 1, outputTokens := 2,
                   cacheCreationInputTokens := 3, cacheReadInputTokens := 4 },
        deltaText := "done" }
    toolCall := fun _ => .error "x"
    gradingCall := .ok
      { text := "\x7b\x7d",
        usage := { inputTokens := 5, outputTokens := 6,
                   cacheCreationInputTokens := 7, cacheReadInputTokens := 8 } } }

def resC3 : EvalRunResult :=
  match runEval cfgC3 evalC3 envC3 0 with
  | .ok r => r
  | .error _ => default

def traceC3 : EvalTrace :=
  match resC3.trace with
  | some t => t
  | none => default

def stepC3 : AgenticStep := traceC3.steps.head!

/-- Witness for C3 (amended) at a concrete completed run. -/
theorem claim_C3_witness :
    stepC3.startTime ≤ stepC3.endTime ∧
    stepC3.duration = (stepC3.endTime : Int) - (stepC3.startTime : Int) :=
  claim_C3 cfgC3 evalC3 envC3 0 resC3 traceC3 rfl rfl stepC3 (by
    have h : traceC3.steps = [stepC3] := rfl
    rw [h]
    exact List.mem_singleton_self _)

/-! ## C5 — trace aggregates are derivable from the steps -/

/-- Claim C5: after every completed eval run the trace aggregates are
derivable — `step_count` is the number of steps, the token, tool-call and
cache totals are the per-step sums, and the grading trace's cache metrics
are added to the two cache totals while its input/output tokens are not
added to the token totals. -/
theorem claim_C5 (cfg : EvalClientConfig) (eval : Eval) (env : EvalEnv) (clock0 : Nat)
    (r : EvalRunResult) (h : runEval cfg eval env clock0 = .ok r) :
    ∃ t gt, r.trace = some t ∧ t.grading = some gt ∧
      t.stepCount = t.steps.length ∧
      t.totalInputTokens = (t.steps.map (·.inputTokens)).sum ∧
      t.totalOutputTokens = (t.steps.map (·.outputTokens)).sum ∧
      t.toolCallCount = (t.steps.map (fun s => s.toolCalls.length)).sum ∧
      t.totalCacheCreationTokens
        = (t.steps.map (·.cacheCreationInputTokens)).sum + gt.cacheCreationInputTokens ∧
      t.totalCacheReadTokens
        = (t.steps.map (·.cacheReadInputTokens)).sum + gt.cacheReadInputTokens := by
  obtain ⟨hdone, hr⟩ := runEval_ok_inv cfg eval env clock0 r h
  obtain ⟨t, gt, htr, hgr, _, hcount, hin, hout, htc, hcc, hcr⟩ :=
    finalizeRun_trace_spec cfg eval env.gradingCall
      (runLoop cfg eval env.stream env.toolCall cfg.maxSteps
        (initLoopState eval (clock0 + 1))).1 clock0
  exact ⟨t, gt, by rw [hr]; exact htr, hgr, hcount, hin, hout, htc, hcc, hcr⟩

def cfgC5 : EvalClientConfig :=
  { command := "srv", args := [], env := [], model := "m", gradingModel := "",
    agentSystemPrompt := "", maxSteps := 10, maxTokens := 4096,
    enablePromptCaching := some true, cacheTTL := "5m", enforceMinimumScores := some true }

def evalC5 : Eval :=
  { name := "e", description := "", prompt := "What is 5 plus 3?", expectedResult := "8",
    agentSystemPrompt := "", gradingRubric := none }

def envC5 : EvalEnv :=
  { connect := .ok ()
    stream := fun i =>
      if i = 0 then
        .ok { content := [.text "Adding.", .toolUse "t1" "add" (.obj [("a", .num "5")])],
              stopReason := "tool_use",
              usage := { inputTokens := 10, outputTokens := 5,
                         cacheCreationInputTokens := 7, cacheReadInputTokens := 0 },
              deltaText := "Adding." }
      else
        .ok { content := [.text "The answer is 8"], stopReason := "end_turn",
              usage := { inputTokens := 20, outputTokens := 6,
                         cacheCreationInputTokens := 0, cacheReadInputTokens := 9 },
              deltaText := "The answer is 8" }
    toolCall := fun _ => .ok [.text "8"]
    gradingCall := .ok
      { text := "\x7b\x7d",
        usage := { inputTokens := 100, outputTokens := 50,
                   cacheCreationInputTokens := 11, cacheReadInputTokens := 13 } } }

def resC5 : EvalRunResult :=
  match runEval cfgC5 evalC5 envC5 0 with
  | .ok r => r
  | .error _ => default

def traceC5 : EvalTrace :=
  match resC5.trace with
  | some t => t
  | none => default

def gradTraceC5 : GradingTrace :=
  match traceC5.grading with
  | some g => g
  | none => default

/-- Witness for C5 at a concrete two-step run with one tool call. -/
theorem claim_C5_witness :
    resC5.trace = some traceC5 ∧ traceC5.grading = some gradTraceC5 ∧
    traceC5.stepCount = traceC5.steps.length ∧
    traceC5.totalInputTokens = (traceC5.steps.map (·.inputTokens)).sum ∧
    traceC5.totalOutputTokens = (traceC5.steps.map (·.outputTokens)).sum ∧
    traceC5.toolCallCount = (traceC5.steps.map (fun s => s.toolCalls.length)).sum ∧
    traceC5.totalCacheCreationTokens
      = (traceC5.steps.map (·.cacheCreationInputTokens)).sum
        + gradTraceC5.cacheCreationInputTokens ∧
    traceC5.totalCacheReadTokens
      = (traceC5.steps.map (·.cacheReadInputTokens)).sum
        + gradTraceC5.cacheReadInputTokens := by
  obtain ⟨t, gt, htr, hgr, hcount, hin, hout, htc, hcc, hcr⟩ :=
    claim_C5 cfgC5 evalC5 envC5 0 resC5 rfl
  have h1 : some traceC5 = some t := by rw [← htr]; exact rfl
  injection h1 with h1'
  subst h1'
  have h2 : some gradTraceC5 = some gt := by rw [← hgr]; exact rfl
  injection h2 with h2'
  subst h2'
  exact ⟨htr, hgr, hcount, hin, hout, htc, hcc, hcr⟩

end McpEvals
